import Mathlib

/-!
Shallow embedding of the Fuel-Consumption-Analyzer pipeline (src/app.py,
lines 35-86): schema validation, date parsing, per-record distance and
mileage, the whole-log rollup, and the monthly `groupby` aggregation.
Numeric cells are modelled as exact rationals; where a float value can be
non-finite (pandas division by zero, NaN cells) an explicit value type
records the non-finite outcomes.
-/

/-- `SKIP_FIRST_MILEAGE = 2` (src/app.py line 4). -/
def SKIP_FIRST_MILEAGE : ℕ := 2

/-- Python `round(x, 2)`: rounding to two decimal places. -/
def round2 (q : ℚ) : ℚ := (round (q * 100) : ℚ) / 100

/-- Split a character list at every dash, keeping the parts. -/
def splitDash : List Char → List (List Char)
  | [] => [[]]
  | c :: cs =>
    let r := splitDash cs
    if c = '-' then [] :: r
    else
      match r with
      | [] => [[c]]
      | p :: ps => (c :: p) :: ps

/-- The numeric value of a digit string. -/
def digitsVal (cs : List Char) : ℕ :=
  cs.foldl (fun n c => 10 * n + (c.toNat - 48)) 0

/-- Parse a nonempty all-digit character list. -/
def parseDigits (cs : List Char) : Option ℕ :=
  if cs ≠ [] ∧ cs.all Char.isDigit then some (digitsVal cs) else none

/-- `pd.to_datetime(s, format="%Y-%m", errors="coerce")`: parse a year-month
string of shape digits-dash-digits with a month from 1 to 12; any failure
yields `none` (pandas `NaT`) instead of raising. -/
def parseYM (s : String) : Option (ℕ × ℕ) :=
  match splitDash s.data with
  | [y, m] =>
    match parseDigits y, parseDigits m with
    | some yn, some mn => if 1 ≤ mn ∧ mn ≤ 12 then some (yn, mn) else none
    | _, _ => none
  | _ => none

/-- One raw input row with the four required cells present and numeric. -/
structure RawRow where
  date : String
  odometer : ℚ
  fuel_litres : ℚ
  amount_spent : ℚ
deriving DecidableEq

/-- Helper for `df["Odometer"].diff()`: the consecutive differences of a
list, each element minus the previous one (`prev` is the element before the
head). -/
def diffsAux (prev : ℚ) : List ℚ → List ℚ
  | [] => []
  | b :: rest => (b - prev) :: diffsAux b rest

/-- `df["Odometer"].diff().fillna(0)` (src/app.py line 56): the first entry
(a NaN from `diff`) becomes `0`, entry `i > 0` is `odometer[i] - odometer[i-1]`. -/
def distances : List ℚ → List ℚ
  | [] => []
  | a :: rest => 0 :: diffsAux a rest

/-- Per-row mileage (src/app.py lines 59-62) for a present numeric fuel cell:
`round(distance / fuel, 2) if fuel and fuel != 0 else 0`; a numeric value is
truthy exactly when nonzero, so the guard is `fuel ≠ 0`. -/
def mileage (distance fuel : ℚ) : ℚ :=
  if fuel ≠ 0 then round2 (distance / fuel) else 0

/-- Per-row mileage with a possibly absent fuel cell (`none` models a NaN
from an empty cell). Python `NaN` is truthy and `NaN != 0` holds, so the
code takes the division branch and `round(distance / NaN, 2)` is NaN
(`none`), not the `0` sentinel. -/
def mileageCell (distance : ℚ) : Option ℚ → Option ℚ
  | none => none
  | some f => if f ≠ 0 then some (round2 (distance / f)) else some 0

/-- A normalized record: the raw cells plus the derived `Month`, `Distance`
and `Mileage_kmpl` columns the pipeline adds to the frame. -/
structure Record where
  date : String
  month : Option (ℕ × ℕ)
  odometer : ℚ
  fuel_litres : ℚ
  amount_spent : ℚ
  distance : ℚ
  mileage_kmpl : ℚ
deriving DecidableEq

/-- Build one normalized record from a raw row and its computed distance. -/
def mkRecord (r : RawRow) (d : ℚ) : Record :=
  { date := r.date
    month := parseYM r.date
    odometer := r.odometer
    fuel_litres := r.fuel_litres
    amount_spent := r.amount_spent
    distance := d
    mileage_kmpl := mileage d r.fuel_litres }

/-- The record normalizer (src/app.py lines 51-72): parse dates, compute the
distance column from the odometer column, compute mileage per row. -/
def normalizeRows (rows : List RawRow) : List Record :=
  List.zipWith mkRecord rows (distances (rows.map RawRow.odometer))

/-- `df["Date"].isna().any()` after coercing parse (src/app.py line 52): the
warning condition raised when at least one date fails to parse. -/
def dateWarning (rows : List RawRow) : Bool :=
  rows.any fun r => (parseYM r.date).isNone

/-- `df["Fuel_Litres"].sum()` (src/app.py line 39). -/
def total_litres (rows : List RawRow) : ℚ :=
  (rows.map RawRow.fuel_litres).sum

/-- `df["Amount_Spent"].sum()` (src/app.py line 40). -/
def total_spent (rows : List RawRow) : ℚ :=
  (rows.map RawRow.amount_spent).sum

/-- `list(df["Odometer"])[-1]` (src/app.py line 41): the last odometer
reading; `none` models the IndexError on an empty table. -/
def total_distance (rows : List RawRow) : Option ℚ :=
  (rows.map RawRow.odometer).getLast?

/-- `avg_mileage = sum(list(df["Mileage_kmpl"])[2:]) / (len(df) - 2)`
(src/app.py line 64). The denominator is the Python integer `len - 2`; when
it is `0` the division raises `ZeroDivisionError`, modelled as `none`; when
it is negative the empty-slice sum `0` is divided by it silently. -/
def avgMileage (ms : List ℚ) : Option ℚ :=
  let n : ℤ := (ms.length : ℤ) - (SKIP_FIRST_MILEAGE : ℤ)
  if n = 0 then none
  else some ((ms.drop SKIP_FIRST_MILEAGE).sum / (n : ℚ))

/-- The Mileage_kmpl column of the normalized frame. -/
def mileages (rows : List RawRow) : List ℚ :=
  (normalizeRows rows).map Record.mileage_kmpl

section BasicLemmas

theorem diffsAux_length (p : ℚ) (l : List ℚ) : (diffsAux p l).length = l.length := by
  induction l generalizing p with
  | nil => rfl
  | cons b rest ih => simp [diffsAux, ih]

theorem distances_length (l : List ℚ) : (distances l).length = l.length := by
  cases l with
  | nil => rfl
  | cons a rest => simp [distances, diffsAux_length]

theorem normalize_length (rows : List RawRow) : (normalizeRows rows).length = rows.length := by
  simp [normalizeRows, List.length_zipWith, distances_length]

theorem map_zipWith_fst {α β γ δ : Type} (g : α → β → γ) (p : γ → δ) (q : α → δ)
    (hpq : ∀ a b, p (g a b) = q a) :
    ∀ (as : List α) (bs : List β), as.length = bs.length →
      (List.zipWith g as bs).map p = as.map q := by
  intro as
  induction as with
  | nil => intro bs _; rfl
  | cons a as ih =>
    intro bs hlen
    cases bs with
    | nil => simp at hlen
    | cons b bs =>
      simp only [List.zipWith, List.map, hpq]
      rw [ih bs (by simpa using hlen)]

theorem map_zipWith_snd {α β γ : Type} (g : α → β → γ) (p : γ → β)
    (hp : ∀ a b, p (g a b) = b) :
    ∀ (as : List α) (bs : List β), as.length = bs.length →
      (List.zipWith g as bs).map p = bs := by
  intro as
  induction as with
  | nil =>
    intro bs hlen
    cases bs with
    | nil => rfl
    | cons b bs => simp at hlen
  | cons a as ih =>
    intro bs hlen
    cases bs with
    | nil => simp at hlen
    | cons b bs =>
      simp only [List.zipWith, List.map, hp]
      rw [ih bs (by simpa using hlen)]

theorem normalizeRows_map_fuel (rows : List RawRow) :
    (normalizeRows rows).map Record.fuel_litres = rows.map RawRow.fuel_litres := by
  apply map_zipWith_fst
  · intro a b; rfl
  · simp [distances_length]

theorem normalizeRows_map_spent (rows : List RawRow) :
    (normalizeRows rows).map Record.amount_spent = rows.map RawRow.amount_spent := by
  apply map_zipWith_fst
  · intro a b; rfl
  · simp [distances_length]

theorem normalizeRows_map_month (rows : List RawRow) :
    (normalizeRows rows).map Record.month = rows.map (fun r => parseYM r.date) := by
  apply map_zipWith_fst
  · intro a b; rfl
  · simp [distances_length]

theorem normalizeRows_map_distance (rows : List RawRow) :
    (normalizeRows rows).map Record.distance = distances (rows.map RawRow.odometer) := by
  apply map_zipWith_snd
  · intro a b; rfl
  · simp [distances_length]

theorem mem_normalizeRows (rows : List RawRow) (rec : Record) (h : rec ∈ normalizeRows rows) :
    ∃ r d, r ∈ rows ∧ rec = mkRecord r d := by
  unfold normalizeRows at h
  generalize distances (rows.map RawRow.odometer) = ds at h
  induction rows generalizing ds with
  | nil => simp at h
  | cons a as ih =>
    cases ds with
    | nil => simp at h
    | cons d ds =>
      simp only [List.zipWith, List.mem_cons] at h
      rcases h with h | h
      · exact ⟨a, d, List.mem_cons_self a as, h⟩
      · obtain ⟨r, d', hr, hrec⟩ := ih ds h
        exact ⟨r, d', List.mem_cons_of_mem a hr, hrec⟩

theorem mkRecord_month_eq (r : RawRow) (d : ℚ) :
    (mkRecord r d).month = parseYM (mkRecord r d).date := rfl

theorem mileages_length (rows : List RawRow) : (mileages rows).length = rows.length := by
  simp [mileages, normalize_length]

end BasicLemmas

/-- A pandas float cell outcome: a finite number, a signed infinity, or NaN.
Used where the code can divide by zero without raising. -/
inductive PVal where
  | num (q : ℚ)
  | inf
  | negInf
  | nan
deriving DecidableEq

/-- Pandas elementwise division `a / b` on float columns: division by zero
yields `inf`/`-inf` (or `NaN` for `0 / 0`) instead of raising. -/
def pdiv (a b : ℚ) : PVal :=
  if b ≠ 0 then PVal.num (a / b)
  else if 0 < a then PVal.inf
  else if a < 0 then PVal.negInf
  else PVal.nan

/-- Pandas `.round(2)` on a float cell: rounds finite numbers, keeps
infinities and NaN. -/
def pround2 : PVal → PVal
  | PVal.num q => PVal.num (round2 q)
  | v => v

/-- Pandas `max` aggregation over a nonempty numeric column (`0` is a dummy
for the empty case, which `groupby` never produces). -/
def listMax : List ℚ → ℚ
  | [] => 0
  | [a] => a
  | a :: b :: l => max a (listMax (b :: l))

/-- Pandas `min` aggregation over a nonempty numeric column. -/
def listMin : List ℚ → ℚ
  | [] => 0
  | [a] => a
  | a :: b :: l => min a (listMin (b :: l))

/-- The rows of one `groupby("Month")` group (src/app.py line 75): records
whose parsed month equals the key; records with an unparseable date
(`month = none`) fall in no group (pandas drops the NaT key). -/
def monthGroup (recs : List Record) (k : ℕ × ℕ) : List Record :=
  recs.filter fun rec => rec.month = some k

/-- The group keys of `df.groupby("Month")`: the distinct parseable months. -/
def monthKeysF (rows : List RawRow) : Finset (ℕ × ℕ) :=
  ((normalizeRows rows).filterMap Record.month).toFinset

/-- One row of the monthly summary frame (src/app.py lines 75-85). -/
structure MonthlySummary where
  month : ℕ × ℕ
  Total_Distance : ℚ
  Total_Fuel_Litres : ℚ
  Total_Spent : ℚ
  Avg_Mileage : ℚ
  Best_Mileage : ℚ
  Worst_Mileage : ℚ
  Refills : ℕ
  Overall_Mileage : PVal
deriving DecidableEq

/-- The monthly aggregation (src/app.py lines 75-85): per-group sums, mean,
max, min and count of the normalized columns, plus the derived
`Overall_Mileage = (Total_Distance / Total_Fuel_Litres).round(2)` column. -/
def monthlySummary (rows : List RawRow) (k : ℕ × ℕ) : MonthlySummary :=
  let g := monthGroup (normalizeRows rows) k
  let td := (g.map Record.distance).sum
  let tf := (g.map Record.fuel_litres).sum
  { month := k
    Total_Distance := td
    Total_Fuel_Litres := tf
    Total_Spent := (g.map Record.amount_spent).sum
    Avg_Mileage := (g.map Record.mileage_kmpl).sum / (g.length : ℚ)
    Best_Mileage := listMax (g.map Record.mileage_kmpl)
    Worst_Mileage := listMin (g.map Record.mileage_kmpl)
    Refills := g.length
    Overall_Mileage := pround2 (pdiv td tf) }

/-- The required column set (src/app.py line 35). -/
def expected_cols : List String := ["Date", "Odometer", "Fuel_Litres", "Amount_Spent"]

/-- The payload of the schema failure message (src/app.py line 37): it
reports the whole required set and the columns actually found. -/
structure SchemaError where
  required : List String
  found : List String
deriving DecidableEq

/-- The schema check (src/app.py lines 36-37):
`expected_cols.issubset(set(df.columns))`; on failure the error carries the
full required set and the found columns. -/
def validateSchema (cols : List String) : Option SchemaError :=
  if expected_cols.all (fun c => cols.contains c) then none
  else some ⟨expected_cols, cols⟩

/-- The set of required columns absent from `cols` — the spec's notion of
"the missing column(s)", written for comparison with what the code reports. -/
def missingCols (cols : List String) : List String :=
  expected_cols.filter fun c => ¬ cols.contains c

/-- The whole-log rollup block (src/app.py lines 39-41 and 64). -/
structure Rollup where
  total_fuel_litres : ℚ
  total_spent : ℚ
  total_distance : Option ℚ
  average_mileage : Option ℚ
deriving DecidableEq

/-- Assemble the rollup metrics. -/
def mkRollup (rows : List RawRow) : Rollup :=
  ⟨total_litres rows, total_spent rows, total_distance rows, avgMileage (mileages rows)⟩

/-- The result bundle: everything the pipeline computes past the schema
check. -/
structure Bundle where
  records : List Record
  monthKeys : Finset (ℕ × ℕ)
  monthly : (ℕ × ℕ) → MonthlySummary
  rollup : Rollup
  dateWarn : Bool

/-- The pipeline (src/app.py lines 35-86): the schema check runs first and a
failure stops everything; otherwise all derived results are computed. -/
def runPipeline (cols : List String) (rows : List RawRow) : Except SchemaError Bundle :=
  match validateSchema cols with
  | some e => Except.error e
  | none =>
      Except.ok ⟨normalizeRows rows, monthKeysF rows, monthlySummary rows,
        mkRollup rows, dateWarning rows⟩

/-- The column list of the frame after the pipeline ran (src/app.py lines
51-72): the in-place assignments `df["Date"] = ...`, `df["Distance"] = ...`,
`df["Mileage_kmpl"] = ...`, `df["Month"] = ...` overwrite `Date` and append
three new columns to the very frame the loader returned. -/
def colsAfterPipeline (cols : List String) : List String :=
  cols ++ ["Distance", "Mileage_kmpl", "Month"]

/-- The `Date` column contents after the in-place
`df["Date"] = pd.to_datetime(...)` overwrite: parsed values, no longer the
raw strings. -/
def dateColAfterParse (dates : List String) : List (Option (ℕ × ℕ)) :=
  dates.map parseYM

section HelperLemmas

theorem avgMileage_above_skip (ms : List ℚ) (h : SKIP_FIRST_MILEAGE < ms.length) :
    avgMileage ms =
      some ((ms.drop SKIP_FIRST_MILEAGE).sum / ((ms.drop SKIP_FIRST_MILEAGE).length : ℚ)) := by
  have hne : (ms.length : ℤ) - (SKIP_FIRST_MILEAGE : ℤ) ≠ 0 := by
    have : (SKIP_FIRST_MILEAGE : ℤ) < (ms.length : ℤ) := by exact_mod_cast h
    omega
  have hlen : (ms.drop SKIP_FIRST_MILEAGE).length = ms.length - SKIP_FIRST_MILEAGE := by
    simp [List.length_drop]
  rw [avgMileage]
  simp only [hne, if_neg, if_false]
  congr 1
  congr 1
  rw [hlen]
  push_cast [Nat.cast_sub h.le]
  ring

theorem avgMileage_at_skip (ms : List ℚ) (h : ms.length = SKIP_FIRST_MILEAGE) :
    avgMileage ms = none := by
  simp [avgMileage, h]

theorem avgMileage_below_skip (ms : List ℚ) (h : ms.length < SKIP_FIRST_MILEAGE) :
    avgMileage ms = some 0 := by
  have hne : (ms.length : ℤ) - (SKIP_FIRST_MILEAGE : ℤ) ≠ 0 := by
    have : (ms.length : ℤ) < (SKIP_FIRST_MILEAGE : ℤ) := by exact_mod_cast h
    omega
  have hdrop : ms.drop SKIP_FIRST_MILEAGE = [] := by
    apply List.drop_eq_nil_of_le
    exact h.le
  rw [avgMileage]
  simp [hne, hdrop]

theorem diffsAux_get? (xs : List ℚ) :
    ∀ (p : ℚ) (i : ℕ) (a b : ℚ), (p :: xs).get? i = some a → xs.get? i = some b →
      (diffsAux p xs).get? i = some (b - a) := by
  induction xs with
  | nil => intro p i a b _ hb; simp at hb
  | cons c rest ih =>
    intro p i a b ha hb
    cases i with
    | zero =>
      simp only [List.get?] at ha hb
      simp [diffsAux, ← Option.some_inj.mp ha, ← Option.some_inj.mp hb]
    | succ j =>
      simp only [List.get?] at ha hb
      simpa [diffsAux] using ih c j a b ha hb

theorem distances_get?_succ (l : List ℚ) (i : ℕ) (a b : ℚ)
    (ha : l.get? i = some a) (hb : l.get? (i + 1) = some b) :
    (distances l).get? (i + 1) = some (b - a) := by
  cases l with
  | nil => simp at ha
  | cons x xs =>
    have hb' : xs.get? i = some b := hb
    simpa [distances] using diffsAux_get? xs x i a b ha hb'

theorem distances_head? (l : List ℚ) (h : l ≠ []) : (distances l).head? = some 0 := by
  cases l with
  | nil => exact absurd rfl h
  | cons x xs => rfl

theorem diffsAux_sum (xs : List ℚ) :
    ∀ p : ℚ, (diffsAux p xs).sum = xs.getLast?.getD p - p := by
  induction xs with
  | nil => intro p; simp [diffsAux]
  | cons b rest ih =>
    intro p
    have hlast : (b :: rest).getLast?.getD p = rest.getLast?.getD b := by
      cases rest with
      | nil => simp
      | cons c m =>
        rw [List.getLast?_cons_cons]
        cases hcm : (c :: m).getLast? with
        | none => simp at hcm
        | some v => simp
    simp only [diffsAux, List.sum_cons, ih b, hlast]
    ring

theorem distances_sum (l : List ℚ) (h : l ≠ []) :
    (distances l).sum = l.getLast?.getD 0 - l.head?.getD 0 := by
  cases l with
  | nil => exact absurd rfl h
  | cons x xs =>
    have hlast : (x :: xs).getLast?.getD (0 : ℚ) = xs.getLast?.getD x := by
      cases xs with
      | nil => simp
      | cons c m =>
        rw [List.getLast?_cons_cons]
        cases hcm : (c :: m).getLast? with
        | none => simp at hcm
        | some v => simp
    simp only [distances, List.sum_cons, diffsAux_sum, hlast, List.head?_cons, Option.getD_some]
    ring

theorem le_listMax (l : List ℚ) : ∀ x ∈ l, x ≤ listMax l := by
  induction l with
  | nil => intro x hx; simp at hx
  | cons a l ih =>
    intro x hx
    cases l with
    | nil =>
      simp only [List.mem_singleton] at hx
      simp [listMax, hx]
    | cons b m =>
      rcases List.mem_cons.mp hx with h | h
      · simp [listMax, h, le_max_iff]
      · exact le_trans (ih x h) (by simp [listMax])

theorem listMin_le (l : List ℚ) : ∀ x ∈ l, listMin l ≤ x := by
  induction l with
  | nil => intro x hx; simp at hx
  | cons a l ih =>
    intro x hx
    cases l with
    | nil =>
      simp only [List.mem_singleton] at hx
      simp [listMin, hx]
    | cons b m =>
      rcases List.mem_cons.mp hx with h | h
      · simp [listMin, h, min_le_iff]
      · exact le_trans (by simp [listMin]) (ih x h)

theorem mean_between_min_max (l : List ℚ) (h : l ≠ []) :
    listMin l ≤ l.sum / (l.length : ℚ) ∧ l.sum / (l.length : ℚ) ≤ listMax l := by
  have hpos : (0 : ℚ) < (l.length : ℚ) := by
    have := List.length_pos.mpr h
    exact_mod_cast this
  constructor
  · rw [le_div_iff₀ hpos]
    calc listMin l * (l.length : ℚ) = l.length • listMin l := by
          rw [nsmul_eq_mul]; ring
      _ ≤ l.sum := List.card_nsmul_le_sum l (listMin l) (listMin_le l)
  · rw [div_le_iff₀ hpos]
    calc l.sum ≤ l.length • listMax l := List.sum_le_card_nsmul l (listMax l) (le_listMax l)
      _ = listMax l * (l.length : ℚ) := by rw [nsmul_eq_mul]; ring

theorem filter_month_eq_nil (l : List Record) (m : ℕ × ℕ)
    (h : m ∉ (l.filterMap Record.month).toFinset) :
    l.filter (fun rec => rec.month = some m) = [] := by
  rw [List.filter_eq_nil_iff]
  intro rec hrec
  simp only [decide_eq_true_eq]
  intro hm
  exact h (List.mem_toFinset.mpr (List.mem_filterMap.mpr ⟨rec, hrec, hm⟩))

theorem sum_fiberwise_month (l : List Record) (f : Record → ℚ)
    (h : ∀ rec ∈ l, (rec.month).isSome) :
    (∑ k ∈ (l.filterMap Record.month).toFinset,
      ((l.filter fun rec => rec.month = some k).map f).sum) = (l.map f).sum := by
  induction l with
  | nil => simp
  | cons a l ih =>
    have ha : (a.month).isSome := h a (List.mem_cons_self a l)
    obtain ⟨m, hm⟩ := Option.isSome_iff_exists.mp ha
    have hrest : ∀ rec ∈ l, (rec.month).isSome :=
      fun rec hrec => h rec (List.mem_cons_of_mem a hrec)
    have hfm : (a :: l).filterMap Record.month = m :: l.filterMap Record.month := by
      simp [List.filterMap_cons, hm]
    have hfilter : ∀ k : ℕ × ℕ,
        ((a :: l).filter fun rec => rec.month = some k) =
          if m = k then a :: (l.filter fun rec => rec.month = some k)
          else l.filter fun rec => rec.month = some k := by
      intro k
      by_cases hk : m = k
      · simp [List.filter_cons, hm, hk]
      · simp [List.filter_cons, hm, hk]
    have hsplit : ∀ k : ℕ × ℕ,
        (((a :: l).filter fun rec => rec.month = some k).map f).sum =
          ((l.filter fun rec => rec.month = some k).map f).sum
            + (if k = m then f a else 0) := by
      intro k
      rw [hfilter k]
      by_cases hk : m = k
      · subst hk
        simp [List.sum_cons, add_comm]
      · have hk' : k ≠ m := fun hkm => hk hkm.symm
        simp [hk, hk']
    rw [hfm]
    rw [List.toFinset_cons]
    rw [Finset.sum_congr rfl (fun k _ => hsplit k)]
    rw [Finset.sum_add_distrib]
    rw [Finset.sum_ite_eq' (insert m (l.filterMap Record.month).toFinset) m (fun _ => f a)]
    simp only [Finset.mem_insert, true_or, if_true]
    by_cases hmem : m ∈ (l.filterMap Record.month).toFinset
    · rw [Finset.insert_eq_self.mpr hmem, ih hrest]
      simp [List.sum_cons]
      ring
    · rw [Finset.sum_insert hmem]
      rw [filter_month_eq_nil l m hmem]
      rw [ih hrest]
      simp [List.sum_cons]
      ring

end HelperLemmas

/-- The worked example table: three refills across two months. -/
def exampleRows : List RawRow :=
  [⟨"2024-01", 1000, 2, 200⟩, ⟨"2024-01", 1050, 3/2, 160⟩, ⟨"2024-02", 1100, 5/2, 260⟩]

/-- A two-row table whose single month has a zero fuel total but a positive
distance total. -/
def zeroFuelRows : List RawRow := [⟨"2024-01", 100, 0, 0⟩, ⟨"2024-01", 150, 0, 0⟩]

/-- A one-row table. -/
def oneRow : List RawRow := [⟨"2024-01", 100, 5, 500⟩]

/-- A two-row table. -/
def twoRows : List RawRow := [⟨"2024-01", 100, 5, 500⟩, ⟨"2024-02", 150, 5, 450⟩]

theorem parseYM_jan : parseYM "2024-01" = some (2024, 1) := by decide

theorem parseYM_feb : parseYM "2024-02" = some (2024, 2) := by decide

/-- C3 (amended): for a present fuel cell the code computes
`round(distance / fuel, 2)` when the fuel is nonzero and the `0` sentinel
when it is zero; records produced by the normalizer obey the sentinel law.
But an absent fuel cell (NaN) is truthy in Python, so the division branch
runs and the mileage is NaN (`none`), not `0`. -/
theorem c3_mileage_policy (rows : List RawRow) (d f : ℚ) :
    mileageCell d none = none
    ∧ mileageCell d (some f) = some (mileage d f)
    ∧ mileage d 0 = 0
    ∧ (f ≠ 0 → mileage d f = round2 (d / f))
    ∧ (∀ rec ∈ normalizeRows rows, rec.fuel_litres = 0 → rec.mileage_kmpl = 0) := by
  refine ⟨rfl, ?_, by simp [mileage], ?_, ?_⟩
  · by_cases hf : f = 0 <;> simp [mileageCell, mileage, hf]
  · intro hf; simp [mileage, hf]
  · intro rec hrec h0
    obtain ⟨r, dd, _, rfl⟩ := mem_normalizeRows rows rec hrec
    simp only [mkRecord] at h0 ⊢
    simp [mileage, h0]

/-- C3 witness: concrete instance of the nonzero-fuel branch. -/
theorem c3_witness : mileage 50 2 = round2 (50 / 2) :=
  (c3_mileage_policy [] 50 2).2.2.2.1 (by norm_num)

/-- C3 counterexample: a record whose fuel cell is absent (NaN) gets a NaN
mileage, not the `0` the claim requires for "zero or absent" fuel. -/
theorem c3_counterexample : mileageCell 50 none ≠ some 0 ∧ mileageCell 50 none = none := by
  constructor
  · simp [mileageCell]
  · rfl

/-- C4 (confirmed): the first record's distance is `0`, and the distance of
every later record is the difference of its odometer reading and the
previous one — the subtraction is taken as-is, so negative differences pass
through uncorrected. -/
theorem c4_distance_column (rows : List RawRow) (h : rows ≠ []) :
    ((normalizeRows rows).map Record.distance).head? = some 0
    ∧ ∀ (i : ℕ) (a b : ℚ),
        (rows.map RawRow.odometer).get? i = some a →
        (rows.map RawRow.odometer).get? (i + 1) = some b →
        ((normalizeRows rows).map Record.distance).get? (i + 1) = some (b - a) := by
  rw [normalizeRows_map_distance]
  constructor
  · apply distances_head?
    simp [h]
  · intro i a b ha hb
    exact distances_get?_succ _ i a b ha hb

/-- C4 witness: on the two-row table the first distance is `0` and the
second is `150 - 100`. -/
theorem c4_witness :
    ((normalizeRows twoRows).map Record.distance).get? 1 = some ((150 : ℚ) - 100) :=
  (c4_distance_column twoRows (by simp [twoRows])).2 0 100 150
    (by simp [twoRows]) (by simp [twoRows])

/-- C7 (confirmed): the rollup total distance is the odometer reading of the
last record, while the per-record distances telescope to last minus first —
the two agree only when the first reading is `0`. -/
theorem c7_total_distance (rows : List RawRow) (h : rows ≠ []) :
    total_distance rows = some ((rows.getLast h).odometer)
    ∧ (distances (rows.map RawRow.odometer)).sum =
        (rows.getLast h).odometer - (rows.head h).odometer := by
  have hmap : rows.map RawRow.odometer ≠ [] := by simp [h]
  have hlast : (rows.map RawRow.odometer).getLast? = some ((rows.getLast h).odometer) := by
    rw [List.getLast?_map]
    rw [List.getLast?_eq_getLast rows h]
    rfl
  have hhead : (rows.map RawRow.odometer).head? = some ((rows.head h).odometer) := by
    cases rows with
    | nil => exact absurd rfl h
    | cons a l => rfl
  constructor
  · exact hlast
  · rw [distances_sum _ hmap, hlast, hhead]
    rfl

/-- C7 witness: on the two-row table the rollup distance is the last
odometer reading. -/
theorem c7_witness :
    total_distance twoRows = some ((twoRows.getLast (by simp [twoRows])).odometer) :=
  (c7_total_distance twoRows (by simp [twoRows])).1

/-- C2 (amended): when the record count exceeds `SKIP_FIRST_MILEAGE` the
rollup average is the arithmetic mean of the mileage values with index at
least `SKIP_FIRST_MILEAGE`; but there is no `InsufficientDataError`: at a
count equal to the skip the code divides by zero (`ZeroDivisionError`,
modelled `none`, surfaced only as a generic failure message), and below the
skip it silently divides the empty-slice sum by a negative count, returning
`0`. -/
theorem c2_rollup_average (rows : List RawRow) :
    (SKIP_FIRST_MILEAGE < rows.length →
      avgMileage (mileages rows) =
        some (((mileages rows).drop SKIP_FIRST_MILEAGE).sum /
          (((mileages rows).drop SKIP_FIRST_MILEAGE).length : ℚ)))
    ∧ (rows.length = SKIP_FIRST_MILEAGE → avgMileage (mileages rows) = none)
    ∧ (rows.length < SKIP_FIRST_MILEAGE → avgMileage (mileages rows) = some 0) := by
  have hl := mileages_length rows
  refine ⟨?_, ?_, ?_⟩
  · intro h
    exact avgMileage_above_skip _ (by rw [hl]; exact h)
  · intro h
    exact avgMileage_at_skip _ (by rw [hl]; exact h)
  · intro h
    exact avgMileage_below_skip _ (by rw [hl]; exact h)

/-- C2 witness: on the three-row example the average is the mean of the
mileage values past the first two. -/
theorem c2_witness :
    avgMileage (mileages exampleRows) =
      some (((mileages exampleRows).drop SKIP_FIRST_MILEAGE).sum /
        (((mileages exampleRows).drop SKIP_FIRST_MILEAGE).length : ℚ)) :=
  (c2_rollup_average exampleRows).1 (by simp [exampleRows, SKIP_FIRST_MILEAGE])

/-- C2 counterexample: the claim demands a failure whenever the record count
is at most the skip count, yet a one-record log yields the value `0`
(no error of any kind), and a two-record log hits a bare `ZeroDivisionError`
(modelled `none`) instead of an `InsufficientDataError`. -/
theorem c2_counterexample :
    avgMileage (mileages oneRow) = some 0 ∧ avgMileage (mileages twoRows) = none := by
  constructor
  · exact avgMileage_below_skip _ (by rw [mileages_length]; simp [oneRow, SKIP_FIRST_MILEAGE])
  · exact avgMileage_at_skip _ (by rw [mileages_length]; simp [twoRows, SKIP_FIRST_MILEAGE])

/-- C5 (amended): the pipeline stops with the schema failure, before any
computation, whenever a required column is absent, and the failure lists the
columns actually found — but it reports the full required set, not exactly
the missing column(s). -/
theorem c5_schema_check (cols : List String) (rows : List RawRow) :
    ((validateSchema cols).isSome ↔ ∃ c ∈ expected_cols, ¬ cols.contains c)
    ∧ (∀ e, validateSchema cols = some e → e.required = expected_cols ∧ e.found = cols)
    ∧ (∀ e, validateSchema cols = some e → runPipeline cols rows = Except.error e) := by
  refine ⟨?_, ?_, ?_⟩
  · constructor
    · intro h
      by_contra hc
      push_neg at hc
      have hall : expected_cols.all (fun c => cols.contains c) = true := by
        rw [List.all_eq_true]
        intro c hcmem
        simpa using hc c hcmem
      rw [validateSchema, if_pos hall] at h
      simp at h
    · intro ⟨c, hcmem, hcabs⟩
      rw [validateSchema]
      split
      · next hall =>
        rw [List.all_eq_true] at hall
        exact absurd (hall c hcmem) (by simpa using hcabs)
      · simp
  · intro e he
    rw [validateSchema] at he
    split at he
    · simp at he
    · exact ⟨(Option.some_inj.mp he).symm ▸ rfl, (Option.some_inj.mp he).symm ▸ rfl⟩
  · intro e he
    rw [runPipeline, he]

/-- C5 witness: dropping every column but `Date` stops the pipeline with the
schema failure carrying the required set and the found columns. -/
theorem c5_witness :
    runPipeline ["Date"] [] = Except.error ⟨expected_cols, ["Date"]⟩ :=
  (c5_schema_check ["Date"] []).2.2 ⟨expected_cols, ["Date"]⟩ (by decide)

/-- C5 counterexample: with only `Amount_Spent` missing, the failure payload
names all four required columns — including three that are present — rather
than exactly the missing one. -/
theorem c5_counterexample :
    validateSchema ["Date", "Odometer", "Fuel_Litres"] =
      some ⟨expected_cols, ["Date", "Odometer", "Fuel_Litres"]⟩
    ∧ missingCols ["Date", "Odometer", "Fuel_Litres"] = ["Amount_Spent"]
    ∧ (SchemaError.mk expected_cols ["Date", "Odometer", "Fuel_Litres"]).required ≠
        missingCols ["Date", "Odometer", "Fuel_Litres"] := by
  refine ⟨by decide, by decide, by decide⟩

/-- C8 (amended): the pipeline mutates the loaded frame in place — the
column assignments append `Distance`, `Mileage_kmpl` and `Month` to the
caller's table (and overwrite `Date` with parsed values), so the table the
pipeline leaves behind is never the raw input table, though every original
column name is still present. -/
theorem c8_mutation (cols : List String) :
    colsAfterPipeline cols ≠ cols
    ∧ (∀ c ∈ cols, c ∈ colsAfterPipeline cols)
    ∧ "Distance" ∈ colsAfterPipeline cols
    ∧ "Mileage_kmpl" ∈ colsAfterPipeline cols
    ∧ "Month" ∈ colsAfterPipeline cols := by
  refine ⟨?_, ?_, ?_, ?_, ?_⟩
  · intro h
    have := congrArg List.length h
    simp [colsAfterPipeline] at this
  · intro c hc
    simp [colsAfterPipeline, hc]
  · simp [colsAfterPipeline]
  · simp [colsAfterPipeline]
  · simp [colsAfterPipeline]

/-- C8 witness: the raw `Date` column survives as a name in the mutated
frame of the standard schema. -/
theorem c8_witness : "Date" ∈ colsAfterPipeline expected_cols :=
  (c8_mutation expected_cols).2.1 "Date" (by decide)

/-- C8 counterexample: running the pipeline on a frame with exactly the
required columns leaves the caller's frame with a different column list —
the input table is mutated, not left unchanged. -/
theorem c8_counterexample :
    colsAfterPipeline expected_cols ≠ expected_cols
    ∧ dateColAfterParse ["2024-01"] ≠ (["2024-01"].map fun _ => none) := by
  refine ⟨by decide, by decide⟩

theorem pround2_pdiv_spec (a b : ℚ) :
    (b ≠ 0 → pround2 (pdiv a b) = PVal.num (round2 (a / b)))
    ∧ (b = 0 → pround2 (pdiv a b) =
        (if 0 < a then PVal.inf else if a < 0 then PVal.negInf else PVal.nan)) := by
  constructor
  · intro hb
    simp [pdiv, pround2, hb]
  · intro hb
    subst hb
    by_cases ha : 0 < a
    · simp [pdiv, pround2, ha]
    · by_cases ha' : a < 0
      · simp [pdiv, pround2, ha, ha']
      · simp [pdiv, pround2, ha, ha']

/-- C1 (amended): for a month with a nonzero fuel total the overall mileage
is `round(Total_Distance / Total_Fuel_Litres, 2)`; no exception is raised
for a zero fuel total, but instead of an explicit "not computable" marker
the pandas column division emits `inf` (or `-inf`; `NaN` only when the
distance total is zero too). -/
theorem c1_overall_mileage (rows : List RawRow) (k : ℕ × ℕ) :
    ((monthlySummary rows k).Total_Fuel_Litres ≠ 0 →
      (monthlySummary rows k).Overall_Mileage =
        PVal.num (round2 ((monthlySummary rows k).Total_Distance /
          (monthlySummary rows k).Total_Fuel_Litres)))
    ∧ ((monthlySummary rows k).Total_Fuel_Litres = 0 →
      (monthlySummary rows k).Overall_Mileage =
        (if 0 < (monthlySummary rows k).Total_Distance then PVal.inf
         else if (monthlySummary rows k).Total_Distance < 0 then PVal.negInf
         else PVal.nan)) := by
  have hO : (monthlySummary rows k).Overall_Mileage =
      pround2 (pdiv (monthlySummary rows k).Total_Distance
        (monthlySummary rows k).Total_Fuel_Litres) := rfl
  rw [hO]
  exact pround2_pdiv_spec _ _

/-- C1 witness: the example table's January has fuel total `7/2`, so its
overall mileage is the rounded quotient of the monthly totals. -/
theorem c1_witness :
    (monthlySummary exampleRows (2024, 1)).Overall_Mileage =
      PVal.num (round2 ((monthlySummary exampleRows (2024, 1)).Total_Distance /
        (monthlySummary exampleRows (2024, 1)).Total_Fuel_Litres)) :=
  (c1_overall_mileage exampleRows (2024, 1)).1
    (by norm_num [monthlySummary, monthGroup, normalizeRows, exampleRows, distances,
      diffsAux, mkRecord, parseYM_jan, parseYM_feb, List.filter_cons])

/-- C1 counterexample: a month with fuel total `0` and distance total `50`
gets overall mileage `inf` — a numeric float, not pandas' missing-value
marker `NaN` nor any explicit "not computable" value. -/
theorem c1_counterexample :
    (monthlySummary zeroFuelRows (2024, 1)).Total_Fuel_Litres = 0
    ∧ (monthlySummary zeroFuelRows (2024, 1)).Overall_Mileage = PVal.inf
    ∧ (monthlySummary zeroFuelRows (2024, 1)).Overall_Mileage ≠ PVal.nan := by
  have h2 : (monthlySummary zeroFuelRows (2024, 1)).Overall_Mileage = PVal.inf := by
    norm_num [monthlySummary, monthGroup, normalizeRows, zeroFuelRows, distances,
      diffsAux, mkRecord, parseYM_jan, pdiv, pround2]
  refine ⟨?_, h2, ?_⟩
  · norm_num [monthlySummary, monthGroup, normalizeRows, zeroFuelRows, distances,
      diffsAux, mkRecord, parseYM_jan]
  · rw [h2]
    intro hcon
    exact PVal.noConfusion hcon

/-- C6 (confirmed): an unparseable date does not abort the pipeline — the
warning condition is set, the row's record belongs to no monthly group, and
its fuel, spending and odometer cells still feed the rollup totals. -/
theorem c6_unparseable_date (pre post : List RawRow) (r : RawRow)
    (h : parseYM r.date = none) :
    dateWarning (pre ++ r :: post) = true
    ∧ (∀ k : ℕ × ℕ, ∀ rec ∈ monthGroup (normalizeRows (pre ++ r :: post)) k,
        rec.month = some k)
    ∧ (∀ rec ∈ normalizeRows (pre ++ r :: post), rec.date = r.date →
        ∀ k : ℕ × ℕ, rec ∉ monthGroup (normalizeRows (pre ++ r :: post)) k)
    ∧ total_litres (pre ++ r :: post) = total_litres (pre ++ post) + r.fuel_litres
    ∧ total_spent (pre ++ r :: post) = total_spent (pre ++ post) + r.amount_spent
    ∧ (post = [] → total_distance (pre ++ r :: post) = some r.odometer) := by
  refine ⟨?_, ?_, ?_, ?_, ?_, ?_⟩
  · rw [dateWarning, List.any_eq_true]
    exact ⟨r, List.mem_append_right pre (List.mem_cons_self r post), by simp [h]⟩
  · intro k rec hrec
    have := List.mem_filter.mp hrec
    simpa using this.2
  · intro rec hrec hdate k hmem
    obtain ⟨r', d, _, rfl⟩ := mem_normalizeRows _ rec hrec
    have hmonth : (mkRecord r' d).month = some k := by
      have := List.mem_filter.mp hmem
      simpa using this.2
    have hdate' : (mkRecord r' d).month = parseYM r.date := by
      rw [mkRecord_month_eq]
      rw [hdate]
    rw [hdate', h] at hmonth
    exact Option.noConfusion hmonth
  · simp only [total_litres, List.map_append, List.sum_append, List.map_cons, List.sum_cons]
    ring
  · simp only [total_spent, List.map_append, List.sum_append, List.map_cons, List.sum_cons]
    ring
  · intro hpost
    subst hpost
    rw [total_distance, List.map_append]
    simp

/-- A row whose date does not parse as year-month. -/
def badDateRow : RawRow := ⟨"garbage", 100, 5, 500⟩

/-- C6 witness: a one-row log with an unparseable date sets the warning and
still supplies the rollup's final odometer reading. -/
theorem c6_witness :
    dateWarning ([] ++ badDateRow :: []) = true
    ∧ total_distance ([] ++ badDateRow :: []) = some badDateRow.odometer :=
  ⟨(c6_unparseable_date [] [] badDateRow (by decide)).1,
    (c6_unparseable_date [] [] badDateRow (by decide)).2.2.2.2.2 rfl⟩

/-- C9 (confirmed): each monthly summary's worst mileage is at most its
average mileage, which is at most its best mileage — min, mean and max of
the group's per-record mileage values. -/
theorem c9_monthly_ordering (rows : List RawRow) (k : ℕ × ℕ) (h : k ∈ monthKeysF rows) :
    (monthlySummary rows k).Worst_Mileage ≤ (monthlySummary rows k).Avg_Mileage
    ∧ (monthlySummary rows k).Avg_Mileage ≤ (monthlySummary rows k).Best_Mileage := by
  obtain ⟨rec, hrec, hmonth⟩ := List.mem_filterMap.mp (List.mem_toFinset.mp h)
  have hg : rec ∈ monthGroup (normalizeRows rows) k :=
    List.mem_filter.mpr ⟨hrec, by simp [hmonth]⟩
  have hne : (monthGroup (normalizeRows rows) k).map Record.mileage_kmpl ≠ [] := by
    intro hnil
    rw [List.map_eq_nil_iff] at hnil
    rw [hnil] at hg
    simp at hg
  have hmm := mean_between_min_max _ hne
  have hAvg : (monthlySummary rows k).Avg_Mileage =
      ((monthGroup (normalizeRows rows) k).map Record.mileage_kmpl).sum /
        ((((monthGroup (normalizeRows rows) k).map Record.mileage_kmpl)).length : ℚ) := by
    simp [monthlySummary, List.length_map]
  have hWorst : (monthlySummary rows k).Worst_Mileage =
      listMin ((monthGroup (normalizeRows rows) k).map Record.mileage_kmpl) := rfl
  have hBest : (monthlySummary rows k).Best_Mileage =
      listMax ((monthGroup (normalizeRows rows) k).map Record.mileage_kmpl) := rfl
  rw [hAvg, hWorst, hBest]
  exact hmm

/-- C9 witness: the ordering on the example table's January summary. -/
theorem c9_witness :
    (monthlySummary exampleRows (2024, 1)).Worst_Mileage ≤
      (monthlySummary exampleRows (2024, 1)).Avg_Mileage
    ∧ (monthlySummary exampleRows (2024, 1)).Avg_Mileage ≤
      (monthlySummary exampleRows (2024, 1)).Best_Mileage :=
  c9_monthly_ordering exampleRows (2024, 1) (by decide)

/-- C10 (confirmed): when every date parses, the monthly groups partition
the records, so the monthly fuel totals sum to the rollup fuel total and the
monthly spending totals sum to the rollup spending total. -/
theorem c10_partition (rows : List RawRow) (h : ∀ r ∈ rows, (parseYM r.date).isSome) :
    (∑ k ∈ monthKeysF rows, (monthlySummary rows k).Total_Fuel_Litres) = total_litres rows
    ∧ (∑ k ∈ monthKeysF rows, (monthlySummary rows k).Total_Spent) = total_spent rows := by
  have hrecs : ∀ rec ∈ normalizeRows rows, (rec.month).isSome := by
    intro rec hrec
    obtain ⟨r, d, hr, rfl⟩ := mem_normalizeRows rows rec hrec
    simpa [mkRecord] using h r hr
  have hTF : ∀ k : ℕ × ℕ, (monthlySummary rows k).Total_Fuel_Litres =
      (((normalizeRows rows).filter fun rec => rec.month = some k).map
        Record.fuel_litres).sum := fun k => rfl
  have hTS : ∀ k : ℕ × ℕ, (monthlySummary rows k).Total_Spent =
      (((normalizeRows rows).filter fun rec => rec.month = some k).map
        Record.amount_spent).sum := fun k => rfl
  constructor
  · simp only [hTF, monthKeysF]
    rw [sum_fiberwise_month _ _ hrecs]
    rw [normalizeRows_map_fuel]
    rfl
  · simp only [hTS, monthKeysF]
    rw [sum_fiberwise_month _ _ hrecs]
    rw [normalizeRows_map_spent]
    rfl

/-- C10 witness: on the example table the two monthly fuel totals sum to the
rollup fuel total. -/
theorem c10_witness :
    (∑ k ∈ monthKeysF exampleRows,
      (monthlySummary exampleRows k).Total_Fuel_Litres) = total_litres exampleRows :=
  (c10_partition exampleRows (by decide)).1
